import Mathlib

/-
Verification of the version utilities module (.github/scripts/version_utils.py).

The Python module is shallowly embedded below.  Modelling conventions:
  * Python str is modelled as Lean String (a list of characters); str.strip()
    is modelled by pyStrip, removing the ASCII whitespace characters
    space, tab, newline, carriage return, vertical tab and form feed from
    both ends.
  * The regex (0|[1-9]\d*)\.(0|[1-9]\d*)\.(0|[1-9]\d*) anchored at both ends
    is modelled by splitting the string at dots: since a group never
    contains a dot, the regex matches exactly when the split yields three
    parts, each matching the group pattern (isGroup).  \d is modelled as
    the ASCII digits 0-9.
  * int() applied to the split parts of a validated version string is
    modelled by pyInt, which ignores surrounding whitespace (as int() does)
    and folds the decimal digits.
  * subprocess.run is modelled by an environment mapping each query to an
    outcome: either a completed process (return code and captured stdout)
    or a raised exception.  check=True semantics (raising
    CalledProcessError on a nonzero return code) are modelled explicitly
    at the call sites that use it.
  * print(...) without a file argument writes to standard output; emitted
    diagnostics are therefore modelled as (OutStream.stdout, text) pairs.
  * Python exit codes are modelled as the Nat returned by main.
-/

/-- ASCII whitespace characters removed by Python str.strip(). -/
def isPySpace (c : Char) : Bool :=
  c == ' ' || c == '\t' || c == '\n' || c == '\r' || c == '\x0b' || c == '\x0c'

/-- Python str.strip() on the character list. -/
def pyStripL (l : List Char) : List Char :=
  ((l.dropWhile isPySpace).reverse.dropWhile isPySpace).reverse

/-- Python str.strip() on strings. -/
def pyStrip (s : String) : String := ⟨pyStripL s.data⟩

/-- Python str.split(sep) for a single-character separator:
"1.2.3".split(".") = ["1","2","3"], "".split(".") = [""]. -/
def splitOnChar (sep : Char) : List Char → List (List Char)
  | [] => [[]]
  | c :: cs =>
    if c == sep then
      [] :: splitOnChar sep cs
    else
      match splitOnChar sep cs with
      | [] => [[c]]
      | g :: gs => (c :: g) :: gs

/-- One group of the version regex: 0|[1-9]\d* . -/
def isGroup (g : List Char) : Bool :=
  g == ['0'] ||
    (match g with
     | [] => false
     | d :: ds => (decide ('1' ≤ d) && decide (d ≤ '9')) && ds.all (fun c => c.isDigit))

/-- validate_semantic_version: strip, then full regex match of
(0|[1-9]\d*)\.(0|[1-9]\d*)\.(0|[1-9]\d*), modelled as an exact 3-way split
at the dots.  Total (the Python function never raises). -/
def validate_semantic_version (version : String) : Bool :=
  match splitOnChar '.' (pyStripL version.data) with
  | [a, b, c] => isGroup a && isGroup b && isGroup c
  | _ => false

/-- Python int() on a part produced by splitting a validated version:
surrounding whitespace is ignored, then the decimal digits are folded. -/
def pyInt (l : List Char) : Nat :=
  (pyStripL l).foldl (fun n c => 10 * n + (c.toNat - 48)) 0

/-- parse_version (the inner function of compare_versions):
parts = version.split('.'); (int(parts[0]), int(parts[1]), int(parts[2])). -/
def parse_version (version : String) : Nat × Nat × Nat :=
  let parts := splitOnChar '.' version.data
  (pyInt (parts.getD 0 []), pyInt (parts.getD 1 []), pyInt (parts.getD 2 []))

/-- Python tuple < on integer triples (lexicographic). -/
def tupleLt (a b : Nat × Nat × Nat) : Bool :=
  decide (a.1 < b.1) ||
    (decide (a.1 = b.1) &&
      (decide (a.2.1 < b.2.1) ||
        (decide (a.2.1 = b.2.1) && decide (a.2.2 < b.2.2))))

/-- compare_versions: raises ValueError (modelled as Except.error) unless both
arguments validate, then the three-way comparison of the parsed triples. -/
def compare_versions (version1 version2 : String) : Except String Int :=
  if !(validate_semantic_version version1) || !(validate_semantic_version version2) then
    .error "Both versions must be valid semantic versions"
  else
    let v1_parts := parse_version version1
    let v2_parts := parse_version version2
    if tupleLt v1_parts v2_parts then .ok (-1)
    else if tupleLt v2_parts v1_parts then .ok 1
    else .ok 0

/-- Spec-side definition (refinement target): standard lexicographic strict
order on (major, minor, patch). -/
def lexTripleLt (a b : Nat × Nat × Nat) : Prop :=
  a.1 < b.1 ∨ (a.1 = b.1 ∧ (a.2.1 < b.2.1 ∨ (a.2.1 = b.2.1 ∧ a.2.2 < b.2.2)))

lemma tupleLt_iff_lex (a b : Nat × Nat × Nat) : tupleLt a b = true ↔ lexTripleLt a b := by
  simp [tupleLt, lexTripleLt]

lemma tupleLt_self (a : Nat × Nat × Nat) : tupleLt a a = false := by
  simp [tupleLt]

lemma tupleLt_asymm {a b : Nat × Nat × Nat} (h : tupleLt a b = true) :
    tupleLt b a = false := by
  simp [tupleLt] at h ⊢
  omega

lemma tupleLt_eq {a b : Nat × Nat × Nat} (h1 : tupleLt a b = false)
    (h2 : tupleLt b a = false) : a = b := by
  obtain ⟨a1, a2, a3⟩ := a
  obtain ⟨b1, b2, b3⟩ := b
  simp [tupleLt] at h1 h2
  simp only [Prod.mk.injEq]
  omega

lemma lex_of_tupleLt {a b : Nat × Nat × Nat} (h : tupleLt a b = true) :
    lexTripleLt a b :=
  (tupleLt_iff_lex a b).mp h

lemma not_lex_of_tupleLt_false {a b : Nat × Nat × Nat} (h : tupleLt a b = false) :
    ¬ lexTripleLt a b := fun hl => by
  rw [(tupleLt_iff_lex a b).mpr hl] at h
  exact Bool.noConfusion h

lemma compare_versions_ok_of_valid {v1 v2 : String}
    (h1 : validate_semantic_version v1 = true)
    (h2 : validate_semantic_version v2 = true) :
    compare_versions v1 v2 =
      (if tupleLt (parse_version v1) (parse_version v2) then Except.ok (-1)
       else if tupleLt (parse_version v2) (parse_version v1) then Except.ok 1
       else Except.ok 0) := by
  unfold compare_versions
  simp [h1, h2]

/-- C1: for every pair of format-valid version strings, compare_versions
parses each into its (major, minor, patch) triple and returns -1, 0 or 1
according to the standard lexicographic order on the triples; in particular
the three concrete examples from the spec hold. -/
theorem compare_versions_lex_spec :
    (∀ v1 v2 : String, validate_semantic_version v1 = true →
       validate_semantic_version v2 = true →
       ∃ r : Int, compare_versions v1 v2 = Except.ok r ∧
         (r = -1 ↔ lexTripleLt (parse_version v1) (parse_version v2)) ∧
         (r = 0 ↔ parse_version v1 = parse_version v2) ∧
         (r = 1 ↔ lexTripleLt (parse_version v2) (parse_version v1))) ∧
    compare_versions "1.2.3" "1.2.3" = Except.ok 0 ∧
    compare_versions "1.2.3" "1.3.0" = Except.ok (-1) ∧
    compare_versions "2.0.0" "1.9.9" = Except.ok 1 := by
  refine ⟨?_, rfl, rfl, rfl⟩
  intro v1 v2 h1 h2
  rw [compare_versions_ok_of_valid h1 h2]
  rcases hlt : tupleLt (parse_version v1) (parse_version v2) with _ | _
  · rcases hgt : tupleLt (parse_version v2) (parse_version v1) with _ | _
    · refine ⟨0, by simp [hlt, hgt], ?_, ?_, ?_⟩
      · exact ⟨fun h => absurd h (by decide),
          fun hl => absurd hl (not_lex_of_tupleLt_false hlt)⟩
      · exact iff_of_true rfl (tupleLt_eq hlt hgt)
      · exact ⟨fun h => absurd h (by decide),
          fun hl => absurd hl (not_lex_of_tupleLt_false hgt)⟩
    · refine ⟨1, by simp [hlt, hgt], ?_, ?_, ?_⟩
      · exact ⟨fun h => absurd h (by decide),
          fun hl => absurd hl (not_lex_of_tupleLt_false hlt)⟩
      · refine ⟨fun h => absurd h (by decide), fun he => ?_⟩
        rw [he, tupleLt_self] at hgt
        exact Bool.noConfusion hgt
      · exact iff_of_true rfl (lex_of_tupleLt hgt)
  · refine ⟨-1, by simp [hlt], ?_, ?_, ?_⟩
    · exact iff_of_true rfl (lex_of_tupleLt hlt)
    · refine ⟨fun h => absurd h (by decide), fun he => ?_⟩
      rw [he, tupleLt_self] at hlt
      exact Bool.noConfusion hlt
    · exact ⟨fun h => absurd h (by decide),
        fun hl => absurd hl (not_lex_of_tupleLt_false (tupleLt_asymm hlt))⟩

theorem compare_versions_lex_spec_witness :
    ∃ r : Int, compare_versions "1.2.3" "1.3.0" = Except.ok r ∧
      (r = -1 ↔ lexTripleLt (parse_version "1.2.3") (parse_version "1.3.0")) ∧
      (r = 0 ↔ parse_version "1.2.3" = parse_version "1.3.0") ∧
      (r = 1 ↔ lexTripleLt (parse_version "1.3.0") (parse_version "1.2.3")) :=
  compare_versions_lex_spec.1 "1.2.3" "1.3.0" rfl rfl

/-- C4: compare_versions raises (returns Except.error) exactly when at least
one argument fails format validation; equivalently it returns a result
exactly when both validate.  Concretely it errors on "1.2" and on "abc". -/
theorem compare_versions_raises_iff :
    (∀ v1 v2 : String, (∃ r, compare_versions v1 v2 = Except.ok r) ↔
        (validate_semantic_version v1 = true ∧ validate_semantic_version v2 = true)) ∧
    compare_versions "1.2" "1.0.0" =
      Except.error "Both versions must be valid semantic versions" ∧
    compare_versions "abc" "1.0.0" =
      Except.error "Both versions must be valid semantic versions" := by
  refine ⟨?_, rfl, rfl⟩
  intro v1 v2
  constructor
  · rintro ⟨r, hr⟩
    by_cases h1 : validate_semantic_version v1 = true
    · by_cases h2 : validate_semantic_version v2 = true
      · exact ⟨h1, h2⟩
      · unfold compare_versions at hr
        simp [h1, h2] at hr
    · unfold compare_versions at hr
      simp [h1] at hr
  · rintro ⟨h1, h2⟩
    rw [compare_versions_ok_of_valid h1 h2]
    rcases hlt : tupleLt (parse_version v1) (parse_version v2) with _ | _
    · rcases hgt : tupleLt (parse_version v2) (parse_version v1) with _ | _
      · exact ⟨0, by simp [hlt, hgt]⟩
      · exact ⟨1, by simp [hlt, hgt]⟩
    · exact ⟨-1, by simp [hlt]⟩

theorem compare_versions_raises_iff_witness :
    ∃ r, compare_versions "1.2.3" "2.0.0" = Except.ok r :=
  (compare_versions_raises_iff.1 "1.2.3" "2.0.0").mpr ⟨rfl, rfl⟩

/-- C9: comparison is a total order on valid versions: it is antisymmetric
(compare a b = -(compare b a)), returns 0 exactly when the parsed triples
coincide, and in particular compare a a = 0. -/
theorem compare_versions_total_order :
    ∀ a b : String, validate_semantic_version a = true →
      validate_semantic_version b = true →
      (∃ r r2 : Int, compare_versions a b = Except.ok r ∧
        compare_versions b a = Except.ok r2 ∧ r = -r2) ∧
      (compare_versions a b = Except.ok 0 ↔ parse_version a = parse_version b) ∧
      compare_versions a a = Except.ok 0 := by
  intro a b h1 h2
  have hab := compare_versions_ok_of_valid h1 h2
  have hba := compare_versions_ok_of_valid h2 h1
  have haa := compare_versions_ok_of_valid h1 h1
  refine ⟨?_, ?_, by rw [haa, tupleLt_self]; simp⟩
  · rcases hlt : tupleLt (parse_version a) (parse_version b) with _ | _
    · rcases hgt : tupleLt (parse_version b) (parse_version a) with _ | _
      · exact ⟨0, 0, by rw [hab]; simp [hlt, hgt], by rw [hba]; simp [hlt, hgt], by decide⟩
      · exact ⟨1, -1, by rw [hab]; simp [hlt, hgt], by rw [hba]; simp [hgt], by decide⟩
    · exact ⟨-1, 1, by rw [hab]; simp [hlt],
        by rw [hba]; simp [hlt, tupleLt_asymm hlt], by decide⟩
  · rw [hab]
    rcases hlt : tupleLt (parse_version a) (parse_version b) with _ | _
    · rcases hgt : tupleLt (parse_version b) (parse_version a) with _ | _
      · rw [if_neg (by decide), if_neg (by decide)]
        exact iff_of_true rfl (tupleLt_eq hlt hgt)
      · rw [if_neg (by decide), if_pos (by decide)]
        refine ⟨fun h => ?_, fun he => ?_⟩
        · simp at h
        · rw [he, tupleLt_self] at hgt
          exact Bool.noConfusion hgt
    · rw [if_pos (by decide)]
      refine ⟨fun h => ?_, fun he => ?_⟩
      · simp at h
      · rw [he, tupleLt_self] at hlt
        exact Bool.noConfusion hlt

theorem compare_versions_total_order_witness :
    (∃ r r2 : Int, compare_versions "2.0.0" "1.9.9" = Except.ok r ∧
      compare_versions "1.9.9" "2.0.0" = Except.ok r2 ∧ r = -r2) ∧
    (compare_versions "2.0.0" "1.9.9" = Except.ok 0 ↔
      parse_version "2.0.0" = parse_version "1.9.9") ∧
    compare_versions "2.0.0" "2.0.0" = Except.ok 0 :=
  compare_versions_total_order "2.0.0" "1.9.9" rfl rfl

lemma dropWhile_head_false (p : Char → Bool) :
    ∀ (l : List Char) (c : Char), (l.dropWhile p).head? = some c → p c = false := by
  intro l
  induction l with
  | nil => intro c h; simp [List.dropWhile] at h
  | cons a t ih =>
    intro c h
    rcases hp : p a with _ | _
    · simp only [List.dropWhile, hp, List.head?] at h
      cases h
      exact hp
    · simp only [List.dropWhile, hp] at h
      exact ih c h

lemma dropWhile_eq_self (p : Char → Bool) (l : List Char)
    (h : ∀ c, l.head? = some c → p c = false) : l.dropWhile p = l := by
  cases l with
  | nil => rfl
  | cons a t => simp [List.dropWhile, h a rfl]

lemma pyStripL_head_false (l : List Char) :
    ∀ c, (pyStripL l).head? = some c → isPySpace c = false := by
  intro c hc
  unfold pyStripL at hc
  rw [List.head?_reverse] at hc
  have hsplit := List.takeWhile_append_dropWhile isPySpace (l.dropWhile isPySpace).reverse
  have hne : (l.dropWhile isPySpace).reverse.dropWhile isPySpace ≠ [] := by
    intro h0
    rw [h0] at hc
    cases hc
  have key : (List.dropWhile isPySpace l).head? = some c := by
    rw [← List.getLast?_reverse]
    conv_lhs => rw [← hsplit]
    rw [List.getLast?_append_of_ne_nil _ hne]
    exact hc
  exact dropWhile_head_false isPySpace l c key

lemma pyStripL_getLast_false (l : List Char) :
    ∀ c, (pyStripL l).getLast? = some c → isPySpace c = false := by
  intro c hc
  unfold pyStripL at hc
  rw [List.getLast?_reverse] at hc
  exact dropWhile_head_false isPySpace _ c hc

lemma pyStripL_eq_self (l : List Char)
    (h1 : ∀ c, l.head? = some c → isPySpace c = false)
    (h2 : ∀ c, l.getLast? = some c → isPySpace c = false) : pyStripL l = l := by
  unfold pyStripL
  rw [dropWhile_eq_self _ _ h1]
  rw [dropWhile_eq_self _ _ (fun c hc => h2 c (by rwa [List.head?_reverse] at hc))]
  exact List.reverse_reverse l

lemma pyStripL_idem (l : List Char) : pyStripL (pyStripL l) = pyStripL l :=
  pyStripL_eq_self _ (pyStripL_head_false l) (pyStripL_getLast_false l)

lemma pyStrip_idem (s : String) : pyStrip (pyStrip s) = pyStrip s :=
  congrArg String.mk (pyStripL_idem s.data)

lemma pyStrip_data (s : String) : (pyStrip s).data = pyStripL s.data := rfl

lemma validate_pyStrip (s : String) :
    validate_semantic_version (pyStrip s) = validate_semantic_version s := by
  unfold validate_semantic_version
  rw [pyStrip_data, pyStripL_idem]

/-- Proof helper: interleave a separator between parts (inverse of splitOnChar). -/
def joinSep (sep : Char) : List (List Char) → List Char
  | [] => []
  | [g] => g
  | g :: gs => g ++ sep :: joinSep sep gs

lemma splitOnChar_ne_nil (sep : Char) (l : List Char) : splitOnChar sep l ≠ [] := by
  cases l with
  | nil => simp [splitOnChar]
  | cons c cs =>
    by_cases hc : c == sep
    · simp [splitOnChar, hc]
    · rcases h : splitOnChar sep cs with _ | ⟨g, gs⟩ <;> simp [splitOnChar, hc, h]

lemma joinSep_cons (sep : Char) (g : List Char) (gs : List (List Char)) (h : gs ≠ []) :
    joinSep sep (g :: gs) = g ++ sep :: joinSep sep gs := by
  cases gs with
  | nil => exact absurd rfl h
  | cons g2 gs2 => rfl

lemma joinSep_splitOnChar (sep : Char) : ∀ l, joinSep sep (splitOnChar sep l) = l := by
  intro l
  induction l with
  | nil => rfl
  | cons c cs ih =>
    by_cases hc : c == sep
    · have hsep : c = sep := by simpa using hc
      rw [show splitOnChar sep (c :: cs) = [] :: splitOnChar sep cs from by
        simp [splitOnChar, hc]]
      rw [joinSep_cons sep [] _ (splitOnChar_ne_nil sep cs)]
      simp [ih, hsep]
    · rcases h : splitOnChar sep cs with _ | ⟨g, gs⟩
      · exact absurd h (splitOnChar_ne_nil sep cs)
      · rw [show splitOnChar sep (c :: cs) = (c :: g) :: gs from by
          simp [splitOnChar, hc, h]]
        cases gs with
        | nil =>
          have hg : g = cs := by rw [h] at ih; exact ih
          simp [joinSep, hg]
        | cons g2 gs2 =>
          rw [joinSep_cons sep (c :: g) _ (by simp)]
          rw [h] at ih
          rw [joinSep_cons sep g _ (by simp)] at ih
          rw [List.cons_append, ih]

lemma splitOnChar_parts_no_sep (sep : Char) :
    ∀ l g, g ∈ splitOnChar sep l → sep ∉ g := by
  intro l
  induction l with
  | nil =>
    intro g hg
    simp [splitOnChar] at hg
    subst hg
    simp
  | cons c cs ih =>
    intro g hg
    by_cases hc : c == sep
    · rw [show splitOnChar sep (c :: cs) = [] :: splitOnChar sep cs from by
        simp [splitOnChar, hc]] at hg
      rcases List.mem_cons.mp hg with h1 | h2
      · subst h1
        simp
      · exact ih g h2
    · rcases h : splitOnChar sep cs with _ | ⟨g0, gs⟩
      · exact absurd h (splitOnChar_ne_nil sep cs)
      · rw [show splitOnChar sep (c :: cs) = (c :: g0) :: gs from by
          simp [splitOnChar, hc, h]] at hg
        rcases List.mem_cons.mp hg with h1 | h2
        · subst h1
          intro hmem
          rcases List.mem_cons.mp hmem with h3 | h4
          · rw [h3] at hc
            exact hc (by simp)
          · exact ih g0 (by rw [h]; exact List.mem_cons_self g0 gs) h4
        · exact ih g (by rw [h]; exact List.mem_cons_of_mem g0 h2)

lemma splitOnChar_no_sep (sep : Char) : ∀ l : List Char, sep ∉ l →
    splitOnChar sep l = [l] := by
  intro l
  induction l with
  | nil => intro _; rfl
  | cons c cs ih =>
    intro h
    have hc : (c == sep) = false := by
      simp only [beq_eq_false_iff_ne]
      intro he
      exact h (by rw [← he]; exact List.mem_cons_self c cs)
    have hcs : sep ∉ cs := fun hm => h (List.mem_cons_of_mem c hm)
    simp [splitOnChar, hc, ih hcs]

lemma splitOnChar_append_sep (sep : Char) : ∀ (l1 l2 : List Char), sep ∉ l1 →
    splitOnChar sep (l1 ++ sep :: l2) = l1 :: splitOnChar sep l2 := by
  intro l1
  induction l1 with
  | nil => intro l2 _; simp [splitOnChar]
  | cons c cs ih =>
    intro l2 h
    have hc : (c == sep) = false := by
      simp only [beq_eq_false_iff_ne]
      intro he
      exact h (by rw [← he]; exact List.mem_cons_self c cs)
    have hcs : sep ∉ cs := fun hm => h (List.mem_cons_of_mem c hm)
    rw [List.cons_append]
    simp [splitOnChar, hc, ih l2 hcs]

lemma splitOnChar_eq_three (sep : Char) (l a b c : List Char) :
    splitOnChar sep l = [a, b, c] ↔
      (l = a ++ sep :: (b ++ sep :: c) ∧ sep ∉ a ∧ sep ∉ b ∧ sep ∉ c) := by
  constructor
  · intro h
    have hj := joinSep_splitOnChar sep l
    rw [h] at hj
    have h1 : sep ∉ a := splitOnChar_parts_no_sep sep l a (by rw [h]; simp)
    have h2 : sep ∉ b := splitOnChar_parts_no_sep sep l b (by rw [h]; simp)
    have h3 : sep ∉ c := splitOnChar_parts_no_sep sep l c (by rw [h]; simp)
    exact ⟨by rw [← hj]; rfl, h1, h2, h3⟩
  · rintro ⟨hl, h1, h2, h3⟩
    subst hl
    rw [splitOnChar_append_sep sep a _ h1, splitOnChar_append_sep sep b _ h2,
      splitOnChar_no_sep sep c h3]

/-- Spec-side definition of one version group: the single digit 0, or a digit
sequence not starting with 0. -/
def GroupSpec (g : List Char) : Prop :=
  g = ['0'] ∨ ∃ d ds, g = d :: ds ∧ '1' ≤ d ∧ d ≤ '9' ∧ ∀ x ∈ ds, x.isDigit = true

/-- Spec-side definition of a stripped valid version string: three
dot-separated groups. -/
def VersionCoreSpec (l : List Char) : Prop :=
  ∃ a b c, l = a ++ '.' :: (b ++ '.' :: c) ∧ GroupSpec a ∧ GroupSpec b ∧ GroupSpec c

lemma isGroup_iff (g : List Char) : isGroup g = true ↔ GroupSpec g := by
  cases g with
  | nil => simp [isGroup, GroupSpec]
  | cons d ds =>
    simp only [isGroup, GroupSpec, Bool.or_eq_true, beq_iff_eq, Bool.and_eq_true,
      decide_eq_true_eq, List.all_eq_true, List.cons.injEq]
    constructor
    · rintro (h | ⟨⟨h1, h9⟩, hds⟩)
      · exact Or.inl h
      · exact Or.inr ⟨d, ds, ⟨rfl, rfl⟩, h1, h9, hds⟩
    · rintro (h | ⟨d2, ds2, ⟨hd, hds⟩, h1, h9, hall⟩)
      · exact Or.inl h
      · subst hd
        subst hds
        exact Or.inr ⟨⟨h1, h9⟩, hall⟩

lemma GroupSpec_no_dot {g : List Char} (h : GroupSpec g) : '.' ∉ g := by
  rcases h with h | ⟨d, ds, hg, h1, h9, hds⟩
  · rw [h]
    decide
  · rw [hg]
    intro hm
    rcases List.mem_cons.mp hm with h3 | h4
    · have hd : d = '.' := h3.symm
      subst hd
      exact absurd h1 (by decide)
    · exact absurd (hds '.' h4) (by decide)

/-- C2: the format validator strips surrounding whitespace and then accepts
exactly the strings of three dot-separated groups, each the single digit 0 or
a digit sequence not starting with 0; listed deviations are rejected.  The
Lean model is a total function, matching the claim that the Python validator
never raises. -/
theorem validate_semantic_version_spec :
    (∀ s : String, validate_semantic_version s = true ↔ VersionCoreSpec (pyStripL s.data)) ∧
    validate_semantic_version "1.2.3" = true ∧
    validate_semantic_version " 10.20.30\n" = true ∧
    validate_semantic_version "1.2.3.4" = false ∧
    validate_semantic_version "01.2.3" = false ∧
    validate_semantic_version "1.2.3-rc1" = false ∧
    validate_semantic_version "1.2" = false ∧
    validate_semantic_version "abc" = false ∧
    validate_semantic_version "x 1.2.3" = false := by
  refine ⟨?_, by decide, by decide, by decide, by decide, by decide, by decide,
    by decide, by decide⟩
  intro s
  unfold validate_semantic_version
  constructor
  · intro hv
    generalize h : splitOnChar '.' (pyStripL s.data) = parts at hv
    rcases parts with _ | ⟨a, _ | ⟨b, _ | ⟨c, _ | ⟨d, rest⟩⟩⟩⟩
    · exact Bool.noConfusion hv
    · exact Bool.noConfusion hv
    · exact Bool.noConfusion hv
    · have hv2 : (isGroup a && isGroup b && isGroup c) = true := hv
      rw [Bool.and_eq_true, Bool.and_eq_true] at hv2
      obtain ⟨⟨ha, hb⟩, hc⟩ := hv2
      exact ⟨a, b, c, ((splitOnChar_eq_three '.' _ a b c).mp h).1,
        (isGroup_iff a).mp ha, (isGroup_iff b).mp hb, (isGroup_iff c).mp hc⟩
    · exact Bool.noConfusion hv
  · rintro ⟨a, b, c, hl, ha, hb, hc⟩
    have hsplit : splitOnChar '.' (pyStripL s.data) = [a, b, c] :=
      (splitOnChar_eq_three '.' _ a b c).mpr
        ⟨hl, GroupSpec_no_dot ha, GroupSpec_no_dot hb, GroupSpec_no_dot hc⟩
    rw [hsplit]
    simp [(isGroup_iff a).mpr ha, (isGroup_iff b).mpr hb, (isGroup_iff c).mpr hc]

theorem validate_semantic_version_spec_witness :
    validate_semantic_version "7.0.10" = true :=
  (validate_semantic_version_spec.1 "7.0.10").mpr
    ⟨['7'], ['0'], ['1', '0'], by decide,
      Or.inr ⟨'7', [], rfl, by decide, by decide, by simp⟩,
      Or.inl rfl,
      Or.inr ⟨'1', ['0'], rfl, by decide, by decide, by decide⟩⟩

/-- Output stream of a print call; Python print() without a file argument
writes to stdout. -/
inductive OutStream where
  | stdout
  | stderr
deriving DecidableEq

/-- One printed diagnostic line: stream and text. -/
abbrev Msg := OutStream × String

/-- Outcome of opening and reading a file: its content, FileNotFoundError,
or any other I/O exception. -/
inductive FileOutcome where
  | content (s : String)
  | notFound
  | ioError (msg : String)
deriving DecidableEq

/-- The file system as seen by open(): path to outcome. -/
abbrev FS := String → FileOutcome

/-- read_version_from_file: read and strip the file, return the stripped
content if it validates; print a diagnostic and return None on invalid
content, missing file, or any other I/O error. -/
def read_version_from_file (fs : FS) (file_path : String) : Option String × List Msg :=
  match fs file_path with
  | .content raw =>
    let version := pyStrip raw
    if validate_semantic_version version then
      (some version, [])
    else
      (none, [(OutStream.stdout,
        "Error: Invalid semantic version format in " ++ file_path ++ ": " ++ version)])
  | .notFound =>
    (none, [(OutStream.stdout, "Error: " ++ file_path ++ " file not found")])
  | .ioError e =>
    (none, [(OutStream.stdout, "Error reading " ++ file_path ++ ": " ++ e)])

/-- Outcome of one subprocess.run call: a completed process with its return
code and captured stdout, or a raised exception. -/
inductive ProcOutcome where
  | res (returncode : Int) (stdout : String)
  | raises (msg : String)
deriving DecidableEq

/-- Environment for git_tag_exists: the results of
"git tag -l TAG" and "git ls-remote --tags origin TAG", per tag name. -/
structure GitEnv where
  tagList : String → ProcOutcome
  lsRemote : String → ProcOutcome

/-- Whether the local query "git tag -l TAG" completes and reports the tag
(return code 0 and non-blank stdout); a raised query counts as not found. -/
def localTagFound (env : GitEnv) (tag : String) : Bool :=
  match env.tagList tag with
  | .res rc out => rc == 0 && !(pyStrip out == "")
  | .raises _ => false

/-- Whether the remote query "git ls-remote --tags origin TAG" completes and
reports the tag; a raised query counts as not found. -/
def remoteTagFound (env : GitEnv) (tag : String) : Bool :=
  match env.lsRemote tag with
  | .res rc out => rc == 0 && !(pyStrip out == "")
  | .raises _ => false

/-- tag_name = f"v{version}" (local binding of git_tag_exists, lifted). -/
def tag_name (version : String) : String := "v" ++ version

/-- git_tag_exists: checks the local tag list for "v<version>", then the
remote named origin; any exception is caught (a diagnostic is printed to
stdout) and yields false.  The second component records whether the remote
was queried. -/
def git_tag_exists (env : GitEnv) (version : String) : Bool × Bool :=
  match env.tagList (tag_name version) with
  | .raises _ => (false, false)
  | .res rc out =>
    if rc == 0 && !(pyStrip out == "") then
      (true, false)
    else
      match env.lsRemote (tag_name version) with
      | .raises _ => (false, true)
      | .res rc2 out2 => (rc2 == 0 && !(pyStrip out2 == ""), true)

/-- Environment for get_git_commit_version_change: the results of
"git diff --name-only HASH^ HASH" and "git show HASH:VERSION", per commit
hash.  Both calls use check=True: a nonzero return code raises
CalledProcessError, modelled explicitly at the call sites. -/
structure CommitEnv where
  diffNames : String → ProcOutcome
  showFile : String → ProcOutcome

/-- changed_files = result.stdout.strip().split('\n') as a list of strings. -/
def changedFiles (out : String) : List String :=
  (splitOnChar '\n' (pyStripL out.data)).map (fun l => ⟨l⟩)

/-- get_git_commit_version_change: if VERSION is among the files changed
between the commit's parent and the commit, read its content at the commit,
strip it and return it if valid; CalledProcessError (nonzero return code,
including a missing parent) and any other exception are caught, a diagnostic
printed, and None returned. -/
def get_git_commit_version_change (env : CommitEnv) (commit_hash : String) :
    Option String × List Msg :=
  match env.diffNames commit_hash with
  | .raises e => (none, [(OutStream.stdout, "Unexpected error: " ++ e)])
  | .res rc out =>
    if rc == 0 then
      if "VERSION" ∈ changedFiles out then
        match env.showFile commit_hash with
        | .raises e => (none, [(OutStream.stdout, "Unexpected error: " ++ e)])
        | .res rc2 out2 =>
          if rc2 == 0 then
            let version := pyStrip out2
            if validate_semantic_version version then
              (some version, [])
            else
              (none, [(OutStream.stdout,
                "Error: Invalid version format in commit " ++ commit_hash ++ ": " ++ version)])
          else
            (none, [(OutStream.stdout, "Error checking git commit changes: CalledProcessError")])
      else
        (none, [])
    else
      (none, [(OutStream.stdout, "Error checking git commit changes: CalledProcessError")])

/-- The external world seen by main: file system, git tag queries, commit
queries. -/
structure World where
  fs : FS
  git : GitEnv
  commit : CommitEnv

/-- Usage text printed when no command is given. -/
def usageLines : List String :=
  ["Usage: python version_utils.py <command> [args...]",
   "Commands:",
   "  validate <version>     - Validate semantic version format",
   "  check-tag <version>    - Check if git tag exists for version",
   "  read-version [file]    - Read and validate version from file",
   "  compare <v1> <v2>      - Compare two versions",
   "  check-commit [hash]    - Check if VERSION changed in commit"]

/-- main: the command dispatcher.  argv is the full argument vector
(argv[0] = script name).  Returns the process exit code and the lines
printed to stdout. -/
def VersionUtils.main (w : World) : List String → Nat × List String
  | [] => (1, usageLines)
  | [_prog] => (1, usageLines)
  | _prog :: command :: args =>
    if command == "validate" then
      match args with
      | [version] =>
        if validate_semantic_version version then
          (0, ["✓ Version " ++ version ++ " is valid"])
        else
          (1, ["✗ Version " ++ version ++ " is invalid"])
      | _ => (1, ["Usage: python version_utils.py validate <version>"])
    else if command == "check-tag" then
      match args with
      | [version] =>
        if (git_tag_exists w.git version).1 then
          (1, ["✗ Tag v" ++ version ++ " already exists"])
        else
          (0, ["✓ Tag v" ++ version ++ " does not exist"])
      | _ => (1, ["Usage: python version_utils.py check-tag <version>"])
    else if command == "read-version" then
      let file_path := match args with
        | [] => "VERSION"
        | p :: _ => p
      let r := read_version_from_file w.fs file_path
      match r.1 with
      | some s => if s == "" then (1, r.2.map Prod.snd) else (0, r.2.map Prod.snd ++ [s])
      | none => (1, r.2.map Prod.snd)
    else if command == "compare" then
      match args with
      | [v1, v2] =>
        match compare_versions v1 v2 with
        | .ok r =>
          (0, [if r = -1 then v1 ++ " < " ++ v2
               else if r = 0 then v1 ++ " = " ++ v2
               else v1 ++ " > " ++ v2])
        | .error e => (1, ["Error: " ++ e])
      | _ => (1, ["Usage: python version_utils.py compare <version1> <version2>"])
    else if command == "check-commit" then
      let commit_hash := match args with
        | [] => "HEAD"
        | p :: _ => p
      let r := get_git_commit_version_change w.commit commit_hash
      match r.1 with
      | some s =>
        if s == "" then (1, r.2.map Prod.snd ++ ["No version change detected"])
        else (0, r.2.map Prod.snd ++ [s])
      | none => (1, r.2.map Prod.snd ++ ["No version change detected"])
    else
      (1, ["Unknown command: " ++ command])

lemma read_version_content {fs : FS} {path raw : String}
    (h : fs path = FileOutcome.content raw) :
    read_version_from_file fs path =
      (if validate_semantic_version raw then (some (pyStrip raw), ([] : List Msg))
       else (none, [(OutStream.stdout,
         "Error: Invalid semantic version format in " ++ path ++ ": " ++ pyStrip raw)])) := by
  unfold read_version_from_file
  rw [h, ← validate_pyStrip raw]

lemma read_version_notFound {fs : FS} {path : String}
    (h : fs path = FileOutcome.notFound) :
    read_version_from_file fs path =
      (none, [(OutStream.stdout, "Error: " ++ path ++ " file not found")]) := by
  unfold read_version_from_file
  rw [h]

lemma read_version_ioError {fs : FS} {path e : String}
    (h : fs path = FileOutcome.ioError e) :
    read_version_from_file fs path =
      (none, [(OutStream.stdout, "Error reading " ++ path ++ ": " ++ e)]) := by
  unfold read_version_from_file
  rw [h]

/-- Concrete file system for the C5 examples: VERSION holds " 1.0.0 \n",
BAD holds "1.0", everything else is missing. -/
def fsC5 : FS := fun p =>
  if p == "VERSION" then FileOutcome.content " 1.0.0 \n"
  else if p == "BAD" then FileOutcome.content "1.0"
  else FileOutcome.notFound

/-- C5: the version file reader returns the stripped file content exactly
when that content validates, and an absent value on a missing file or
invalid content; concretely " 1.0.0 \n" yields "1.0.0", a missing path
yields none, and "1.0" yields none. -/
theorem read_version_from_file_spec :
    (∀ (fs : FS) (path raw : String), fs path = FileOutcome.content raw →
        (read_version_from_file fs path).1 =
          (if validate_semantic_version raw then some (pyStrip raw) else none)) ∧
    (∀ (fs : FS) (path : String), fs path = FileOutcome.notFound →
        (read_version_from_file fs path).1 = none) ∧
    (∀ (fs : FS) (path e : String), fs path = FileOutcome.ioError e →
        (read_version_from_file fs path).1 = none) ∧
    (read_version_from_file fsC5 "VERSION").1 = some "1.0.0" ∧
    (read_version_from_file fsC5 "missing").1 = none ∧
    (read_version_from_file fsC5 "BAD").1 = none := by
  refine ⟨?_, ?_, ?_, by decide, by decide, by decide⟩
  · intro fs path raw h
    rw [read_version_content h]
    cases hval : validate_semantic_version raw <;> simp [hval]
  · intro fs path h
    rw [read_version_notFound h]
  · intro fs path e h
    rw [read_version_ioError h]

theorem read_version_from_file_spec_witness :
    (read_version_from_file fsC5 "VERSION").1 =
      (if validate_semantic_version " 1.0.0 \n" then some (pyStrip " 1.0.0 \n") else none) :=
  read_version_from_file_spec.1 fsC5 "VERSION" " 1.0.0 \n" (by decide)

/-- File system in which every path is missing. -/
def fsMissing : FS := fun _ => FileOutcome.notFound

/-- C8 counterexample: reading a missing file emits its diagnostic on
standard output, not standard error — the claim that the reader writes its
diagnostics to standard error is false of the code, whose print() calls all
default to stdout. -/
theorem read_version_diag_stdout_counter :
    read_version_from_file fsMissing "VERSION" =
      (none, [(OutStream.stdout, "Error: VERSION file not found")]) := rfl

/-- C8 amended: when the file is missing, its content is invalid, or any
other I/O failure occurs, the reader emits a non-empty diagnostic before
returning none, and every diagnostic it ever emits goes to standard output. -/
theorem read_version_diag_stream :
    ∀ (fs : FS) (path : String),
      (read_version_from_file fs path).2.all (fun m => m.1 == OutStream.stdout) = true ∧
      ((read_version_from_file fs path).1 = none →
        (read_version_from_file fs path).2 ≠ []) := by
  intro fs path
  rcases h : fs path with raw | _ | e
  · rw [read_version_content h]
    cases hval : validate_semantic_version raw <;> simp [hval]
  · rw [read_version_notFound h]
    simp
  · rw [read_version_ioError h]
    simp

theorem read_version_diag_stream_witness :
    (read_version_from_file fsMissing "VERSION").2 ≠ [] :=
  (read_version_diag_stream fsMissing "VERSION").2 rfl

lemma localTagFound_res {env : GitEnv} {tag : String} {rc : Int} {out : String}
    (h : env.tagList tag = ProcOutcome.res rc out) :
    localTagFound env tag = (rc == 0 && !(pyStrip out == "")) := by
  unfold localTagFound
  rw [h]

lemma localTagFound_raises {env : GitEnv} {tag e : String}
    (h : env.tagList tag = ProcOutcome.raises e) :
    localTagFound env tag = false := by
  unfold localTagFound
  rw [h]

lemma remoteTagFound_res {env : GitEnv} {tag : String} {rc : Int} {out : String}
    (h : env.lsRemote tag = ProcOutcome.res rc out) :
    remoteTagFound env tag = (rc == 0 && !(pyStrip out == "")) := by
  unfold remoteTagFound
  rw [h]

lemma remoteTagFound_raises {env : GitEnv} {tag e : String}
    (h : env.lsRemote tag = ProcOutcome.raises e) :
    remoteTagFound env tag = false := by
  unfold remoteTagFound
  rw [h]

lemma git_tag_exists_res {env : GitEnv} {version : String} {rc : Int} {out : String}
    (h : env.tagList (tag_name version) = ProcOutcome.res rc out) :
    git_tag_exists env version =
      (if rc == 0 && !(pyStrip out == "") then (true, false)
       else match env.lsRemote (tag_name version) with
            | ProcOutcome.raises _ => (false, true)
            | ProcOutcome.res rc2 out2 => (rc2 == 0 && !(pyStrip out2 == ""), true)) := by
  unfold git_tag_exists
  rw [h]

lemma git_tag_exists_raises {env : GitEnv} {version e : String}
    (h : env.tagList (tag_name version) = ProcOutcome.raises e) :
    git_tag_exists env version = (false, false) := by
  unfold git_tag_exists
  rw [h]

/-- C3: whenever the local query completes, the result is the logical OR of
the tag's presence in the local tag list and in origin's tags (raised or
failed remote queries counting as not found); a local hit returns true
immediately without querying the remote; an exception during the local query
is caught and yields false (fail-open), again without the function
propagating any error. -/
theorem git_tag_exists_spec :
    ∀ (env : GitEnv) (version : String),
      (∀ (rc : Int) (out : String), env.tagList (tag_name version) = ProcOutcome.res rc out →
          (git_tag_exists env version).1 =
            (localTagFound env (tag_name version) || remoteTagFound env (tag_name version))) ∧
      (localTagFound env (tag_name version) = true →
          git_tag_exists env version = (true, false)) ∧
      (∀ e, env.tagList (tag_name version) = ProcOutcome.raises e →
          git_tag_exists env version = (false, false)) ∧
      (∀ (e : String) (rc : Int) (out : String),
          env.tagList (tag_name version) = ProcOutcome.res rc out →
          env.lsRemote (tag_name version) = ProcOutcome.raises e →
          (git_tag_exists env version).1 = localTagFound env (tag_name version)) := by
  intro env version
  refine ⟨?_, ?_, ?_, ?_⟩
  · intro rc out h
    rw [git_tag_exists_res h, localTagFound_res h]
    rcases hloc : (rc == 0 && !(pyStrip out == "")) with _ | _
    · rcases hrem : env.lsRemote (tag_name version) with ⟨rc2, out2⟩ | e
      · rw [remoteTagFound_res hrem]
        simp [hloc, hrem]
      · rw [remoteTagFound_raises hrem]
        simp [hloc, hrem]
    · simp [hloc]
  · intro hl
    rcases h : env.tagList (tag_name version) with ⟨rc, out⟩ | e
    · rw [localTagFound_res h] at hl
      rw [git_tag_exists_res h]
      simp [hl]
    · rw [localTagFound_raises h] at hl
      exact Bool.noConfusion hl
  · intro e h
    exact git_tag_exists_raises h
  · intro e rc out h hrem
    rw [git_tag_exists_res h, localTagFound_res h]
    rcases hloc : (rc == 0 && !(pyStrip out == "")) with _ | _
    · simp [hloc, hrem]
    · simp [hloc]

/-- Environment whose local tag list contains v1.0.0 and whose remote has no
tags. -/
def gitEnvLocal : GitEnv where
  tagList := fun t => if t == "v1.0.0" then ProcOutcome.res 0 "v1.0.0" else ProcOutcome.res 0 ""
  lsRemote := fun _ => ProcOutcome.res 0 ""

theorem git_tag_exists_spec_witness :
    git_tag_exists gitEnvLocal "1.0.0" = (true, false) :=
  (git_tag_exists_spec gitEnvLocal "1.0.0").2.1 (by decide)

lemma get_commit_raises {env : CommitEnv} {ch e : String}
    (h : env.diffNames ch = ProcOutcome.raises e) :
    get_git_commit_version_change env ch =
      (none, [(OutStream.stdout, "Unexpected error: " ++ e)]) := by
  unfold get_git_commit_version_change
  rw [h]

lemma get_commit_res {env : CommitEnv} {ch : String} {rc : Int} {out : String}
    (h : env.diffNames ch = ProcOutcome.res rc out) :
    get_git_commit_version_change env ch =
      (if rc == 0 then
        if "VERSION" ∈ changedFiles out then
          match env.showFile ch with
          | ProcOutcome.raises e => (none, [(OutStream.stdout, "Unexpected error: " ++ e)])
          | ProcOutcome.res rc2 out2 =>
            if rc2 == 0 then
              if validate_semantic_version (pyStrip out2) then
                (some (pyStrip out2), [])
              else
                (none, [(OutStream.stdout,
                  "Error: Invalid version format in commit " ++ ch ++ ": " ++ pyStrip out2)])
            else
              (none, [(OutStream.stdout,
                "Error checking git commit changes: CalledProcessError")])
        else (none, [])
      else
        (none, [(OutStream.stdout, "Error checking git commit changes: CalledProcessError")])) := by
  unfold get_git_commit_version_change
  rw [h]

/-- C6: the commit version-change detector returns the (stripped) version
recorded in the commit when VERSION is among the files changed between the
commit's parent and the commit and that content validates; it returns none
when the file did not change, when either git command fails (nonzero return
code, which covers a commit with no parent) or raises, or when the content
is invalid — and on every such command failure or invalid content it reports
a diagnostic (a non-empty printed message) while converting the failure to
none instead of propagating it. -/
theorem get_git_commit_version_change_spec :
    ∀ (env : CommitEnv) (ch : String),
      (∀ e, env.diffNames ch = ProcOutcome.raises e →
          get_git_commit_version_change env ch =
            (none, [(OutStream.stdout, "Unexpected error: " ++ e)])) ∧
      (∀ (rc : Int) (out : String), env.diffNames ch = ProcOutcome.res rc out → rc ≠ 0 →
          get_git_commit_version_change env ch =
            (none, [(OutStream.stdout,
              "Error checking git commit changes: CalledProcessError")])) ∧
      (∀ out : String, env.diffNames ch = ProcOutcome.res 0 out →
          "VERSION" ∉ changedFiles out →
          get_git_commit_version_change env ch = (none, [])) ∧
      (∀ (out e : String), env.diffNames ch = ProcOutcome.res 0 out →
          "VERSION" ∈ changedFiles out →
          env.showFile ch = ProcOutcome.raises e →
          get_git_commit_version_change env ch =
            (none, [(OutStream.stdout, "Unexpected error: " ++ e)])) ∧
      (∀ (out : String) (rc2 : Int) (out2 : String),
          env.diffNames ch = ProcOutcome.res 0 out →
          "VERSION" ∈ changedFiles out →
          env.showFile ch = ProcOutcome.res rc2 out2 → rc2 ≠ 0 →
          get_git_commit_version_change env ch =
            (none, [(OutStream.stdout,
              "Error checking git commit changes: CalledProcessError")])) ∧
      (∀ (out out2 : String), env.diffNames ch = ProcOutcome.res 0 out →
          "VERSION" ∈ changedFiles out →
          env.showFile ch = ProcOutcome.res 0 out2 →
          get_git_commit_version_change env ch =
            (if validate_semantic_version out2 then
              (some (pyStrip out2), [])
             else
              (none, [(OutStream.stdout,
                "Error: Invalid version format in commit " ++ ch ++ ": " ++
                  pyStrip out2)]))) := by
  intro env ch
  refine ⟨?_, ?_, ?_, ?_, ?_, ?_⟩
  · intro e h
    rw [get_commit_raises h]
  · intro rc out h h0
    rw [get_commit_res h]
    have hrc : (rc == 0) = false := by
      simp only [beq_eq_false_iff_ne]
      exact h0
    simp [hrc]
  · intro out h hmem
    rw [get_commit_res h]
    simp [hmem]
  · intro out e h hmem hs
    rw [get_commit_res h]
    simp [hmem, hs]
  · intro out rc2 out2 h hmem hs h2
    rw [get_commit_res h]
    have hrc2 : (rc2 == 0) = false := by
      simp only [beq_eq_false_iff_ne]
      exact h2
    simp [hmem, hs, hrc2]
  · intro out out2 h hmem hs
    rw [get_commit_res h]
    rw [← validate_pyStrip out2]
    rcases hval : validate_semantic_version (pyStrip out2) with _ | _ <;>
      simp [hmem, hs, hval]

/-- Environment for the C6 witness: the commit changes VERSION (and another
file), and VERSION's content at the commit is "1.2.3" with a trailing
newline. -/
def commitEnvC6 : CommitEnv where
  diffNames := fun _ => ProcOutcome.res 0 "VERSION\nREADME.md"
  showFile := fun _ => ProcOutcome.res 0 "1.2.3\n"

theorem get_git_commit_version_change_spec_witness :
    get_git_commit_version_change commitEnvC6 "HEAD" =
      (if validate_semantic_version "1.2.3\n" then
        (some (pyStrip "1.2.3\n"), [])
       else
        (none, [(OutStream.stdout,
          "Error: Invalid version format in commit " ++ "HEAD" ++ ": " ++
            pyStrip "1.2.3\n")])) :=
  ((get_git_commit_version_change_spec commitEnvC6 "HEAD").2.2.2.2.2)
    "VERSION\nREADME.md" "1.2.3\n" (by decide) (by decide) (by decide)

/-- C10: every non-absent string returned by the file reader or the commit
version-change detector passes the format validator and equals its own
stripped form (no surrounding whitespace). -/
theorem returned_versions_validated :
    (∀ (fs : FS) (path v : String), (read_version_from_file fs path).1 = some v →
        validate_semantic_version v = true ∧ pyStrip v = v) ∧
    (∀ (env : CommitEnv) (ch v : String),
        (get_git_commit_version_change env ch).1 = some v →
        validate_semantic_version v = true ∧ pyStrip v = v) := by
  constructor
  · intro fs path v h
    rcases hfs : fs path with raw | _ | e
    · rw [read_version_content hfs] at h
      rcases hval : validate_semantic_version raw with _ | _
      · simp [hval] at h
      · simp [hval] at h
        subst h
        refine ⟨?_, pyStrip_idem raw⟩
        rw [validate_pyStrip]
        exact hval
    · rw [read_version_notFound hfs] at h
      simp at h
    · rw [read_version_ioError hfs] at h
      simp at h
  · intro env ch v h
    rcases hd : env.diffNames ch with ⟨rc, out⟩ | e
    · rw [get_commit_res hd] at h
      by_cases hrc : rc = 0
      · by_cases hmem : "VERSION" ∈ changedFiles out
        · rcases hs : env.showFile ch with ⟨rc2, out2⟩ | e2
          · simp only [hrc, hmem, hs] at h
            by_cases hrc2 : rc2 = 0
            · rcases hval : validate_semantic_version (pyStrip out2) with _ | _
              · simp [hrc2, hval] at h
              · simp [hrc2, hval] at h
                subst h
                exact ⟨hval, pyStrip_idem out2⟩
            · simp [hrc2] at h
          · simp [hrc, hmem, hs] at h
        · simp [hrc, hmem] at h
      · simp [hrc] at h
    · rw [get_commit_raises hd] at h
      simp at h

/-- File system for the C10 witness: every path holds "2.0.0". -/
def fsC10 : FS := fun _ => FileOutcome.content "2.0.0"

theorem returned_versions_validated_witness :
    validate_semantic_version "2.0.0" = true ∧ pyStrip "2.0.0" = "2.0.0" :=
  returned_versions_validated.1 fsC10 "VERSION" "2.0.0" (by decide)

/-- File system for the C7 counterexample: file "A" holds a valid version. -/
def fsC7 : FS := fun p =>
  if p == "A" then FileOutcome.content "1.0.0" else FileOutcome.notFound

/-- Git environment in which no queries find anything. -/
def gitEnvEmpty : GitEnv where
  tagList := fun _ => ProcOutcome.res 0 ""
  lsRemote := fun _ => ProcOutcome.res 0 ""

/-- Commit environment in which no commit changes any file. -/
def commitEnvEmpty : CommitEnv where
  diffNames := fun _ => ProcOutcome.res 0 ""
  showFile := fun _ => ProcOutcome.res 0 ""

def worldC7 : World where
  fs := fsC7
  git := gitEnvEmpty
  commit := commitEnvEmpty

/-- C7 counterexample: read-version has arity 0-1 per the claim, so invoking
it with two positional arguments is an arity violation, yet the dispatcher
prints no usage text and exits 0: it silently ignores the extra argument and
reads the file named by the first one. -/
theorem main_read_version_extra_args_counter :
    VersionUtils.main worldC7 ["version_utils.py", "read-version", "A", "B"] =
      (0, ["1.0.0"]) := by
  decide

/-- C7 amended: the dispatcher enforces the exact arities of validate (1),
check-tag (1) and compare (2), exiting 1 with that sub-command's usage text
on those violations; a missing command exits 1 with the general usage text;
an unknown command exits 1 with an "Unknown command" message (and no usage
text); read-version and check-commit take an optional first argument and
silently ignore any further arguments.  Exit codes are 0 for success-class
outcomes — the tag check inverted, so 0 means the tag does not exist — and 1
for validation failure, usage error, or an existing tag. -/
theorem main_dispatch_spec :
    (∀ w : World, VersionUtils.main w [] = (1, usageLines)) ∧
    (∀ (w : World) (prog : String), VersionUtils.main w [prog] = (1, usageLines)) ∧
    (∀ (w : World) (prog : String) (rest : List String), rest.length ≠ 1 →
        VersionUtils.main w (prog :: "validate" :: rest) =
          (1, ["Usage: python version_utils.py validate <version>"])) ∧
    (∀ (w : World) (prog v : String),
        (VersionUtils.main w [prog, "validate", v]).1 =
          (if validate_semantic_version v then 0 else 1)) ∧
    (∀ (w : World) (prog : String) (rest : List String), rest.length ≠ 1 →
        VersionUtils.main w (prog :: "check-tag" :: rest) =
          (1, ["Usage: python version_utils.py check-tag <version>"])) ∧
    (∀ (w : World) (prog v : String),
        (VersionUtils.main w [prog, "check-tag", v]).1 =
          (if (git_tag_exists w.git v).1 then 1 else 0)) ∧
    (∀ (w : World) (prog : String) (rest : List String), rest.length ≠ 2 →
        VersionUtils.main w (prog :: "compare" :: rest) =
          (1, ["Usage: python version_utils.py compare <version1> <version2>"])) ∧
    (∀ (w : World) (prog v1 v2 : String),
        (VersionUtils.main w [prog, "compare", v1, v2]).1 =
          (if validate_semantic_version v1 && validate_semantic_version v2 then 0 else 1)) ∧
    (∀ (w : World) (prog p : String) (extra : List String),
        VersionUtils.main w (prog :: "read-version" :: p :: extra) =
          VersionUtils.main w [prog, "read-version", p]) ∧
    (∀ (w : World) (prog p : String) (extra : List String),
        VersionUtils.main w (prog :: "check-commit" :: p :: extra) =
          VersionUtils.main w [prog, "check-commit", p]) ∧
    (∀ (w : World) (prog cmd : String) (rest : List String),
        cmd ∉ (["validate", "check-tag", "read-version", "compare",
          "check-commit"] : List String) →
        VersionUtils.main w (prog :: cmd :: rest) = (1, ["Unknown command: " ++ cmd])) := by
  refine ⟨fun w => rfl, fun w prog => rfl, ?_, ?_, ?_, ?_, ?_, ?_, ?_, ?_, ?_⟩
  · intro w prog rest hlen
    rcases rest with _ | ⟨x, _ | ⟨y, t⟩⟩
    · rfl
    · simp at hlen
    · rfl
  · intro w prog v
    rcases hv : validate_semantic_version v with _ | _ <;>
      simp [VersionUtils.main, hv]
  · intro w prog rest hlen
    rcases rest with _ | ⟨x, _ | ⟨y, t⟩⟩
    · rfl
    · simp at hlen
    · rfl
  · intro w prog v
    rcases hv : (git_tag_exists w.git v).1 with _ | _ <;>
      simp [VersionUtils.main, hv]
  · intro w prog rest hlen
    rcases rest with _ | ⟨x, _ | ⟨y, _ | ⟨z, t⟩⟩⟩
    · rfl
    · rfl
    · simp at hlen
    · rfl
  · intro w prog v1 v2
    rcases h1 : validate_semantic_version v1 with _ | _
    · have herr : compare_versions v1 v2 =
          Except.error "Both versions must be valid semantic versions" := by
        unfold compare_versions
        simp [h1]
      simp [VersionUtils.main, herr, h1]
    · rcases h2 : validate_semantic_version v2 with _ | _
      · have herr : compare_versions v1 v2 =
            Except.error "Both versions must be valid semantic versions" := by
          unfold compare_versions
          simp [h2]
        simp [VersionUtils.main, herr, h1, h2]
      · rw [show (VersionUtils.main w [prog, "compare", v1, v2]) =
            (match compare_versions v1 v2 with
             | .ok r =>
               (0, [if r = -1 then v1 ++ " < " ++ v2
                    else if r = 0 then v1 ++ " = " ++ v2
                    else v1 ++ " > " ++ v2])
             | .error e => (1, ["Error: " ++ e])) from rfl]
        rw [compare_versions_ok_of_valid h1 h2]
        rcases hlt : tupleLt (parse_version v1) (parse_version v2) with _ | _ <;>
          rcases hgt : tupleLt (parse_version v2) (parse_version v1) with _ | _ <;>
          simp [h1, h2]
  · intro w prog p extra
    rfl
  · intro w prog p extra
    rfl
  · intro w prog cmd rest hmem
    have h1 : (cmd == "validate") = false := by
      simp only [beq_eq_false_iff_ne]
      intro he
      exact hmem (by rw [he]; simp)
    have h2 : (cmd == "check-tag") = false := by
      simp only [beq_eq_false_iff_ne]
      intro he
      exact hmem (by rw [he]; simp)
    have h3 : (cmd == "read-version") = false := by
      simp only [beq_eq_false_iff_ne]
      intro he
      exact hmem (by rw [he]; simp)
    have h4 : (cmd == "compare") = false := by
      simp only [beq_eq_false_iff_ne]
      intro he
      exact hmem (by rw [he]; simp)
    have h5 : (cmd == "check-commit") = false := by
      simp only [beq_eq_false_iff_ne]
      intro he
      exact hmem (by rw [he]; simp)
    simp [VersionUtils.main, h1, h2, h3, h4, h5]

theorem main_dispatch_spec_witness :
    VersionUtils.main worldC7 ["version_utils.py", "validate"] =
      (1, ["Usage: python version_utils.py validate <version>"]) :=
  main_dispatch_spec.2.2.1 worldC7 "version_utils.py" [] (by decide)

example : validate_semantic_version " 1.2.3 " = true := by decide
example : validate_semantic_version "01.2.3" = false := by decide
example : validate_semantic_version "1.2" = false := by decide
example : validate_semantic_version "1.2.3.4" = false := by decide
example : validate_semantic_version "1.2.3-rc1" = false := by decide
example : compare_versions "1.2.3" "1.3.0" = Except.ok (-1) := rfl
example : parse_version " 1.20.3 " = (1, 20, 3) := by decide
